import Mathlib

/-!
Verification of the symbol-table reader of ksymtab.c (kabi-dw).

The development is a shallow embedding of src/ksymtab.c.  C byte buffers are
modelled as `List Nat` (one Nat per byte, 0 is the NUL byte), C strings as the
byte list of their contents, `uint64_t` values as `Nat` (no claim exercises
wrap-around), and fallible code that calls fail()/exit() as `Except String`
results.  Heap-allocated link strings are modelled by an explicit string heap
(`List (Option (List Nat))`, a cell is `none` once freed) so that aliasing and
independent-storage properties are expressible.

The generic hash container (hash.c) is not part of the sources; where its
behaviour matters it is modelled from the specification's contract for the
opaque associative container (unique-key map with last-insertion-wins lookup,
entry count, iteration); such definitions carry a note in their doc comment.
-/

/-- One symbol record (struct ksym): key (the symbol name bytes), 64-bit
value, mark flag and optional auxiliary link string.  The C record stores the
link as a heap pointer (char pointer owned by the record); here `link` is an
index into an explicit string heap.  The back-pointer to the owning ksymtab is
represented by operating on records through their registry and index. -/
structure Ksym where
  key : List Nat
  value : Nat
  mark : Bool
  link : Option Nat
deriving DecidableEq, Repr

/-- The symbol registry (struct ksymtab): the hash of records plus the running
mark_count.  Note: hash.c is not under src/; the container is modelled from the
spec's opaque-container contract as the list of inserted records. -/
structure Ksymtab where
  hash : List Ksym
  mark_count : Nat
deriving DecidableEq, Repr

/-- Capacity hint used by ksymtab_read (ksymtab.c line 46). -/
def KSYMTAB_SIZE : Nat := 8192

/-- ksymtab_new (lines 257-270): fresh registry, empty container, mark_count
zeroed by the allocator.  The size argument is only a capacity hint for
hash_new and does not affect observable behaviour. -/
def ksymtab_new (size : Nat) : Ksymtab :=
  { hash := [], mark_count := 0 }

/-- ksymtab_add_sym (lines 272-288): allocates a record holding a copy of the
len bytes of str (here: str is exactly the span, len = str.length), the given
value, mark and link zeroed by the allocator, and inserts it into the hash
keyed by the copied name.  hash_add is modelled from the spec: insertion into
the container, later lookups prefer the most recent entry for a key. -/
def ksymtab_add_sym (t : Ksymtab) (str : List Nat) (value : Nat) : Ksymtab :=
  { t with hash := t.hash ++ [{ key := str, value := value, mark := false, link := none }] }

/-- Loop of parse_ksymtab_strings (lines 405-420): walk the bytes one at a
time; a NUL byte ends the current span (the bytes accumulated in cur since the
previous NUL); empty spans are skipped, a non-empty span is added with the
running index i which only then advances. -/
def parse_loop : List Nat → List Nat → Nat → Ksymtab → Ksymtab
  | [], _, _, res => res
  | 0 :: rest, cur, i, res =>
      if cur = [] then parse_loop rest [] i res
      else parse_loop rest [] (i + 1) (ksymtab_add_sym res cur i)
  | b :: rest, cur, i, res => parse_loop rest (cur ++ [b]) i res

/-- parse_ksymtab_strings (lines 390-423): checks that the final byte of the
section is NUL (p subscript d_size - 1; for an empty buffer the C reads before
the buffer, undefined behaviour never reached by callers since
ksymtab_elf_get_section rejects empty sections; the model lets the empty
buffer pass), then splits on NUL bytes.  d_size is d_buf.length. -/
def parse_ksymtab_strings (d_buf : List Nat) : Except String Ksymtab :=
  if (d_buf.getD (d_buf.length - 1) 0) ≠ 0 then
    Except.error "Mallformed __ksymtab_strings section"
  else
    Except.ok (parse_loop d_buf [] 0 (ksymtab_new KSYMTAB_SIZE))

/-- Specification-side description of the splitter (spec section 4.2, stated
in the spec's words for the refinement proof): scan left to right, each NUL
byte ends one candidate entry spanning from the end of the previous entry to
this byte, and zero-length spans are dropped.  cur is the span accumulated so
far; a trailing span not ended by a NUL is never emitted. -/
def specSpans : List Nat → List Nat → List (List Nat)
  | [], _ => []
  | 0 :: rest, cur => if cur = [] then specSpans rest [] else cur :: specSpans rest []
  | b :: rest, cur => specSpans rest (cur ++ [b])

/-- Specification-side record list (spec section 4.2): the emitted entries
keyed by their text with strictly increasing zero-based indices starting at i,
counting only the entries actually emitted. -/
def specRecords : List (List Nat) → Nat → List Ksym
  | [], _ => []
  | s :: ss, i => { key := s, value := i, mark := false, link := none } :: specRecords ss (i + 1)

theorem parse_loop_spec (bs : List Nat) :
    ∀ (cur : List Nat) (i : Nat) (res : Ksymtab),
      parse_loop bs cur i res =
        { hash := res.hash ++ specRecords (specSpans bs cur) i,
          mark_count := res.mark_count } := by
  induction bs with
  | nil => intro cur i res; simp [parse_loop, specSpans, specRecords]
  | cons b rest ih =>
    intro cur i res
    match b with
    | 0 =>
      by_cases hcur : cur = []
      · simp [parse_loop, specSpans, hcur, ih]
      · simp [parse_loop, specSpans, hcur, ih, ksymtab_add_sym, specRecords]
    | Nat.succ b' =>
      simp [parse_loop, specSpans, ih]

/-- C1: splitting the strings blob on NUL bytes emits one record per non-empty
span, keyed by its text, with its value a strictly increasing zero-based index
counting only the emitted entries (empty spans between consecutive NULs are
skipped and do not advance the index). -/
theorem parse_ksymtab_strings_spec (bs : List Nat) (h : bs.getLast? = some 0) :
    parse_ksymtab_strings bs =
      Except.ok { hash := specRecords (specSpans bs []) 0, mark_count := 0 } := by
  have hne : bs ≠ [] := by intro hb; rw [hb] at h; simp at h
  have hlast : bs.getD (bs.length - 1) 0 = 0 := by
    rw [List.getLast?_eq_getElem?] at h
    rw [List.getD_eq_getElem?_getD, h]
    rfl
  unfold parse_ksymtab_strings
  rw [hlast]
  simp [parse_loop_spec, ksymtab_new]

/-- C1 witness: the 9-byte blob foo NUL NUL bar NUL yields exactly two
records, foo (bytes 102,111,111) with index 0 and bar (bytes 98,97,114) with
index 1. -/
theorem parse_ksymtab_strings_spec_witness :
    ([102, 111, 111, 0, 0, 98, 97, 114, 0] : List Nat).getLast? = some 0 ∧
    parse_ksymtab_strings [102, 111, 111, 0, 0, 98, 97, 114, 0] =
      Except.ok { hash := [{ key := [102, 111, 111], value := 0, mark := false, link := none },
                          { key := [98, 97, 114], value := 1, mark := false, link := none }],
                  mark_count := 0 } :=
  ⟨by decide,
   (parse_ksymtab_strings_spec [102, 111, 111, 0, 0, 98, 97, 114, 0] (by decide)).trans
     (congrArg Except.ok (by decide))⟩

/-- ksymtab_ksym_mark (lines 222-227): if the record is not yet marked the
owning registry's mark_count is incremented, then the mark flag is set.  The C
function receives a pointer to the record; the model addresses the record by
its index in the owning registry (an out-of-range index leaves the registry
unchanged; the C caller always passes a valid record). -/
def ksymtab_ksym_mark (t : Ksymtab) (i : Nat) : Ksymtab :=
  match t.hash[i]? with
  | none => t
  | some k =>
      { hash := t.hash.set i { k with mark := true },
        mark_count := if k.mark then t.mark_count else t.mark_count + 1 }

/-- ksymtab_mark_count (lines 331-334). -/
def ksymtab_mark_count (t : Ksymtab) : Nat :=
  t.mark_count

/-- Number of records of the registry whose mark flag is true (the quantity
the spec says mark_count tracks). -/
def markedCount (t : Ksymtab) : Nat :=
  (t.hash.filter fun k => k.mark).length

/-- A sequence of mark calls, each naming a record by index. -/
def markList (t : Ksymtab) (ops : List Nat) : Ksymtab :=
  ops.foldl ksymtab_ksym_mark t

theorem list_set_self {α : Type} : ∀ (l : List α) (i : Nat) (a : α),
    l[i]? = some a → l.set i a = l
  | [], _, _, h => by simp at h
  | x :: tl, 0, a, h => by simp at h; simp [List.set, h]
  | x :: tl, Nat.succ j, a, h => by
      simp at h
      simp [List.set, list_set_self tl j a h]

theorem filter_length_set_mark : ∀ (l : List Ksym) (i : Nat) (k : Ksym),
    l[i]? = some k →
    ((l.set i { k with mark := true }).filter fun x => x.mark).length
      = ((l.filter fun x => x.mark).length) + (if k.mark then 0 else 1)
  | [], _, _, h => by simp at h
  | x :: tl, 0, k, h => by
      simp at h
      subst h
      by_cases hm : x.mark <;> simp [List.set, List.filter, hm]
  | x :: tl, Nat.succ j, k, h => by
      simp at h
      have ih := filter_length_set_mark tl j k h
      by_cases hm : x.mark <;>
        simp [List.set, List.filter, hm, ih, Nat.add_right_comm]

theorem mark_step_inv (t : Ksymtab) (h : t.mark_count = markedCount t) (i : Nat) :
    (ksymtab_ksym_mark t i).mark_count = markedCount (ksymtab_ksym_mark t i) := by
  unfold ksymtab_ksym_mark
  cases heq : t.hash[i]? with
  | none => exact h
  | some k =>
      have hf := filter_length_set_mark t.hash i k heq
      by_cases hm : k.mark <;> simp [markedCount, hf, hm] at * <;> omega

theorem mark_step_mono (t : Ksymtab) (i : Nat) :
    t.mark_count ≤ (ksymtab_ksym_mark t i).mark_count := by
  unfold ksymtab_ksym_mark
  cases heq : t.hash[i]? with
  | none => exact Nat.le_refl _
  | some k => by_cases hm : k.mark <;> simp [hm]

theorem markList_inv (ops : List Nat) :
    ∀ (t : Ksymtab), t.mark_count = markedCount t →
      (markList t ops).mark_count = markedCount (markList t ops)
      ∧ t.mark_count ≤ (markList t ops).mark_count := by
  induction ops with
  | nil => intro t h; exact ⟨h, Nat.le_refl _⟩
  | cons i rest ih =>
      intro t h
      have hstep := mark_step_inv t h i
      have ⟨h1, h2⟩ := ih (ksymtab_ksym_mark t i) hstep
      exact ⟨h1, Nat.le_trans (mark_step_mono t i) h2⟩

/-- C2: for every registry whose mark_count equals its number of marked
records, after any sequence of mark operations the mark_count still equals the
number of marked records and is monotonically non-decreasing; marking an
unmarked record sets its flag and increments mark_count by one, and marking an
already-marked record changes nothing at all. -/
theorem ksymtab_mark_spec (t : Ksymtab) (h : t.mark_count = markedCount t)
    (ops : List Nat) :
    ((markList t ops).mark_count = markedCount (markList t ops)
      ∧ t.mark_count ≤ (markList t ops).mark_count)
    ∧ (∀ i k, t.hash[i]? = some k →
        (k.mark = false →
          (ksymtab_ksym_mark t i).hash[i]? = some { k with mark := true }
          ∧ (ksymtab_ksym_mark t i).mark_count = t.mark_count + 1)
        ∧ (k.mark = true → ksymtab_ksym_mark t i = t)) := by
  refine ⟨markList_inv ops t h, ?_⟩
  intro i k heq
  have hlt : i < t.hash.length := by
    by_contra hge
    rw [List.getElem?_eq_none (Nat.le_of_not_lt hge)] at heq
    exact Option.noConfusion heq
  constructor
  · intro hm
    unfold ksymtab_ksym_mark
    rw [heq]
    simp [hm, List.getElem?_set_self, hlt]
  · intro hm
    have hk : { k with mark := true } = k := by
      cases k; simp_all
    unfold ksymtab_ksym_mark
    rw [heq]
    show { hash := t.hash.set i { k with mark := true },
           mark_count := if k.mark then t.mark_count else t.mark_count + 1 } = t
    rw [hk, list_set_self t.hash i k heq]
    simp [hm]

/-- C2 witness: a concrete two-record registry satisfying the invariant,
driven through the mark sequence 0, 0, 1. -/
theorem ksymtab_mark_spec_witness :
    ({ hash := [{ key := [97], value := 0, mark := false, link := none },
                { key := [98], value := 1, mark := true, link := none }],
       mark_count := 1 } : Ksymtab).mark_count
        = markedCount { hash := [{ key := [97], value := 0, mark := false, link := none },
                                 { key := [98], value := 1, mark := true, link := none }],
                        mark_count := 1 }
    ∧ ((markList { hash := [{ key := [97], value := 0, mark := false, link := none },
                            { key := [98], value := 1, mark := true, link := none }],
                   mark_count := 1 } [0, 0, 1]).mark_count
        = markedCount (markList { hash := [{ key := [97], value := 0, mark := false, link := none },
                                           { key := [98], value := 1, mark := true, link := none }],
                                  mark_count := 1 } [0, 0, 1])) :=
  ⟨by decide,
   (ksymtab_mark_spec { hash := [{ key := [97], value := 0, mark := false, link := none },
                                 { key := [98], value := 1, mark := true, link := none }],
                        mark_count := 1 } (by decide) [0, 0, 1]).1.1⟩

/-- ELF symbol binding extracted from st_info (elf.h macro ELF64_ST_BIND:
shift right by four bits). -/
def ELF64_ST_BIND (st_info : Nat) : Nat :=
  st_info / 16

/-- Binding value for global symbols (elf.h). -/
def STB_GLOBAL : Nat := 1

/-- Binding value for weak symbols (elf.h). -/
def STB_WEAK : Nat := 2

/-- The fields of Elf64_Sym that ksymtab_elf_for_each_global_sym reads.
st_name is a 32-bit index into .strtab, st_info holds the binding in its upper
four bits, st_value is the 64-bit symbol value. -/
structure Elf64_Sym where
  st_name : Nat
  st_info : Nat
  st_value : Nat
deriving DecidableEq, Repr

/-- The C name resolution ke.strtab + sym.st_name: the NUL-terminated string
starting at byte offset off of the string table (truncated at the end of the
table, where the C would keep reading adjacent memory). -/
def resolveName (strtab : List Nat) (off : Nat) : List Nat :=
  (strtab.drop off).takeWhile (fun b => decide (b ≠ 0))

/-- Loop body of ksymtab_elf_for_each_global_sym (lines 201-219): walk the
entries, keep only global or weak binding, skip zero name indices, fail when
the name index exceeds strtab_size, otherwise invoke the handler with the
resolved name, value and binding.  The result is the list of handler
invocations in order together with the failure, if any (the C name == NULL
test at line 215 can never fire: the pointer arithmetic result is non-null). -/
def global_sym_loop (strtab : List Nat) (strtab_size : Nat) :
    List Elf64_Sym → List (List Nat × Nat × Nat) × Option String
  | [] => ([], none)
  | s :: rest =>
      if ¬ (ELF64_ST_BIND s.st_info = STB_GLOBAL ∨ ELF64_ST_BIND s.st_info = STB_WEAK) then
        global_sym_loop strtab strtab_size rest
      else if s.st_name = 0 then
        global_sym_loop strtab strtab_size rest
      else if strtab_size < s.st_name then
        ([], some "Symbol name index out of range")
      else
        ((resolveName strtab s.st_name, s.st_value, ELF64_ST_BIND s.st_info)
            :: (global_sym_loop strtab strtab_size rest).1,
          (global_sym_loop strtab strtab_size rest).2)

/-- ksymtab_elf_for_each_global_sym on an already decoded .symtab region
(lines 181-220): the first, mandatory all-zero entry is skipped (sym++ before
the loop), the remaining entries are processed by the loop. -/
def for_each_global_sym (strtab : List Nat) (strtab_size : Nat)
    (syms : List Elf64_Sym) : List (List Nat × Nat × Nat) × Option String :=
  global_sym_loop strtab strtab_size (syms.drop 1)

/-- An entry the enumerator keeps: global or weak binding and nonzero name
index. -/
def keptSym (s : Elf64_Sym) : Bool :=
  (ELF64_ST_BIND s.st_info == STB_GLOBAL || ELF64_ST_BIND s.st_info == STB_WEAK)
    && (s.st_name != 0)

theorem global_sym_loop_calls (strtab : List Nat) (strtab_size : Nat) :
    ∀ (l : List Elf64_Sym),
      (∀ s ∈ l, keptSym s = true → s.st_name ≤ strtab_size) →
      global_sym_loop strtab strtab_size l =
        ((l.filter keptSym).map
            (fun s => (resolveName strtab s.st_name, s.st_value, ELF64_ST_BIND s.st_info)),
          none) := by
  intro l
  induction l with
  | nil => intro h; rfl
  | cons s rest ih =>
      intro h
      have hrest := fun x hx => h x (List.mem_cons_of_mem s hx)
      by_cases hbind : ELF64_ST_BIND s.st_info = STB_GLOBAL ∨ ELF64_ST_BIND s.st_info = STB_WEAK
      · by_cases hname : s.st_name = 0
        · have hkept : keptSym s = false := by
            simp [keptSym, hname]
          simp [global_sym_loop, hbind, hname, hkept, ih hrest]
        · have hkept : keptSym s = true := by
            simp [keptSym, hname]
            omega
          have hle := h s (List.mem_cons_self s rest) hkept
          have hnlt : ¬ strtab_size < s.st_name := Nat.not_lt.mpr hle
          simp [global_sym_loop, hbind, hname, hnlt, hkept, ih hrest]
      · have hkept : keptSym s = false := by
          simp [keptSym]
          omega
        simp [global_sym_loop, hbind, hkept, ih hrest]

/-- C5: enumerating a .symtab region invokes the handler exactly once per
entry with global or weak binding and nonzero name index, in order, with the
resolved name, the value and the binding; the first record is skipped and all
other entries are filtered out.  The hypothesis rules out the fatal
out-of-range case, settled separately. -/
theorem for_each_global_sym_calls (strtab : List Nat) (strtab_size : Nat)
    (syms : List Elf64_Sym)
    (h : ∀ s ∈ syms.drop 1, keptSym s = true → s.st_name ≤ strtab_size) :
    for_each_global_sym strtab strtab_size syms =
      (((syms.drop 1).filter keptSym).map
          (fun s => (resolveName strtab s.st_name, s.st_value, ELF64_ST_BIND s.st_info)),
        none) :=
  global_sym_loop_calls strtab strtab_size (syms.drop 1) h

/-- C5 witness: a synthetic .symtab with the zero record, a local entry, a
global entry, a weak entry and a zero-name global entry; the handler trace
holds exactly the global and the weak entry. -/
theorem for_each_global_sym_calls_witness :
    (∀ s ∈ ([{ st_name := 0, st_info := 0, st_value := 0 },
             { st_name := 1, st_info := 0, st_value := 5 },
             { st_name := 1, st_info := 16, st_value := 10 },
             { st_name := 3, st_info := 32, st_value := 11 },
             { st_name := 0, st_info := 16, st_value := 12 }] : List Elf64_Sym).drop 1,
        keptSym s = true → s.st_name ≤ 5)
    ∧ for_each_global_sym [0, 97, 0, 98, 0] 5
        [{ st_name := 0, st_info := 0, st_value := 0 },
         { st_name := 1, st_info := 0, st_value := 5 },
         { st_name := 1, st_info := 16, st_value := 10 },
         { st_name := 3, st_info := 32, st_value := 11 },
         { st_name := 0, st_info := 16, st_value := 12 }] =
        ([([97], 10, 1), ([98], 11, 2)], none) :=
  ⟨by decide,
   (for_each_global_sym_calls [0, 97, 0, 98, 0] 5
       [{ st_name := 0, st_info := 0, st_value := 0 },
        { st_name := 1, st_info := 0, st_value := 5 },
        { st_name := 1, st_info := 16, st_value := 10 },
        { st_name := 3, st_info := 32, st_value := 11 },
        { st_name := 0, st_info := 16, st_value := 12 }] (by decide)).trans
     (by decide)⟩

theorem global_sym_loop_error_iff (strtab : List Nat) (strtab_size : Nat) :
    ∀ (l : List Elf64_Sym),
      (global_sym_loop strtab strtab_size l).2 = some "Symbol name index out of range"
        ↔ ∃ s ∈ l, keptSym s = true ∧ strtab_size < s.st_name := by
  intro l
  induction l with
  | nil => simp [global_sym_loop]
  | cons s rest ih =>
      by_cases hbind : ELF64_ST_BIND s.st_info = STB_GLOBAL ∨ ELF64_ST_BIND s.st_info = STB_WEAK
      · by_cases hname : s.st_name = 0
        · have hkept : keptSym s = false := by simp [keptSym, hname]
          simp [global_sym_loop, hbind, hname, hkept, ih]
        · have hkept : keptSym s = true := by
            simp [keptSym, hname]
            omega
          by_cases hlt : strtab_size < s.st_name
          · simp [global_sym_loop, hbind, hname, hlt, hkept]
          · simp [global_sym_loop, hbind, hname, hlt, hkept, ih]
      · have hkept : keptSym s = false := by
          simp [keptSym]
          omega
        simp [global_sym_loop, hbind, hkept, ih]

/-- C3 counterexample: a kept entry whose name index equals strtab_size.  The
name pointer then starts one byte past the .strtab region of length 2 (offset
2 is not a valid byte index), which is exactly the out-of-bounds access the
claim says is prevented, yet the enumeration raises no FormatError: the
bounds test at line 211 uses strictly-greater, not greater-or-equal. -/
theorem for_each_global_sym_boundary_counterexample :
    keptSym { st_name := 2, st_info := 16, st_value := 7 } = true
    ∧ ¬ (2 < ([102, 0] : List Nat).length)
    ∧ (for_each_global_sym [102, 0] ([102, 0] : List Nat).length
        [{ st_name := 0, st_info := 0, st_value := 0 },
         { st_name := 2, st_info := 16, st_value := 7 }]).2 = none := by
  decide

/-- C3 amended: enumeration of a .symtab region fails with the FormatError
"symbol name index out of range" exactly when some kept entry's name index
strictly exceeds strtab_size; a kept entry whose name index equals strtab_size
passes the check (and its name is then read starting one byte past the
.strtab region). -/
theorem for_each_global_sym_error_iff (strtab : List Nat) (strtab_size : Nat)
    (syms : List Elf64_Sym) :
    (for_each_global_sym strtab strtab_size syms).2
        = some "Symbol name index out of range"
      ↔ ∃ s ∈ syms.drop 1, keptSym s = true ∧ strtab_size < s.st_name :=
  global_sym_loop_error_iff strtab strtab_size (syms.drop 1)

/-- Section name constant (line 42). -/
def KSYMTAB_STRINGS : String := "__ksymtab_strings"

/-- Section name constant (line 43). -/
def SYMTAB : String := ".symtab"

/-- Section name constant (line 44). -/
def STRTAB : String := ".strtab"

/-- One ELF section as the locator sees it: its resolved name, whether its
header type is SHT_NOBITS, and its raw bytes (Elf_Data d_buf with d_size =
data.length). -/
structure ElfSection where
  name : String
  sh_type_nobits : Bool
  data : List Nat
deriving DecidableEq, Repr

/-- The input file as seen through libelf by ksymtab_elf_open: whether
elf_kind reports ELF_K_ELF, whether the e_ident magic matches ELFMAG, the ELF
class reported by gelf_getclass, and the section list.  Failures of the libelf
primitives themselves (elf_version, elf_begin, getehdr, getshdrstrndx,
getshdr, strptr) abort the process for environmental reasons and are outside
the model, which assumes a readable input. -/
structure ElfFile where
  is_elf_kind : Bool
  magicOk : Bool
  elfClass : Nat
  sections : List ElfSection
deriving DecidableEq, Repr

/-- ksymtab_elf_get_section (lines 63-121): linear scan for the first section
with the requested name; no match is the not-found outcome (return -1), a
SHT_NOBITS match is a fatal usage error (exit(1) with the debuginfo message),
an empty match is fatal (fail), otherwise the section bytes and size are
produced. -/
def ksymtab_elf_get_section (sections : List ElfSection) (section_name : String) :
    Except String (Option (List Nat)) :=
  match sections.find? (fun s => s.name == section_name) with
  | none => Except.ok none
  | some s =>
      if s.sh_type_nobits then
        Except.error ("The " ++ section_name ++ " section has type SHT_NOBITS")
      else if s.data.length = 0 then
        Except.error (section_name ++ " section empty")
      else
        Except.ok (some s.data)

/-- The open binary handle (struct ksymtab_elf): parser state plus the cached
.strtab byte view and length.  The fd and shstrndx fields carry no observable
content in the model. -/
structure KsymtabElf where
  sections : List ElfSection
  strtab : List Nat
  strtab_size : Nat
deriving DecidableEq, Repr

/-- Values of the uninitialized locals of ksymtab_elf_open (strtab,
strtab_size, lines 130-131) and of ksymtab_elf_for_each_global_sym (data,
size, lines 192-193).  The C never initializes them before use when the
corresponding get_section call returns -1, because both call sites ignore
that return value; the model makes the indeterminate contents explicit. -/
structure Junk where
  strtab : List Nat
  strtab_size : Nat
  symtab : List Nat
deriving DecidableEq, Repr

/-- ksymtab_elf_open (lines 123-172): a non-ELF kind or a magic mismatch
returns the no-handle outcome (NULL, with ke still NULL at done); a class
other than ELFCLASS64 is fatal; otherwise the handle is built and the .strtab
view is cached.  The return value of the STRTAB get_section call (line 166)
is ignored: when .strtab is absent the locals copied into the handle are
uninitialized, modelled by the junk values. -/
def ksymtab_elf_open (f : ElfFile) (junkStrtab : List Nat) (junkSize : Nat) :
    Except String (Option KsymtabElf) :=
  if f.is_elf_kind = false then Except.ok none
  else if f.magicOk = false then Except.ok none
  else if f.elfClass ≠ 64 then Except.error "Unsupported elf class"
  else
    match ksymtab_elf_get_section f.sections STRTAB with
    | Except.error e => Except.error e
    | Except.ok (some d) =>
        Except.ok (some { sections := f.sections, strtab := d, strtab_size := d.length })
    | Except.ok none =>
        Except.ok (some { sections := f.sections, strtab := junkStrtab, strtab_size := junkSize })

/-- Little-endian value of a byte list. -/
def leNat (bs : List Nat) : Nat :=
  bs.foldr (fun b acc => b + 256 * acc) 0

/-- One Elf64_Sym decoded from a 24-byte chunk: st_name is bytes 0-3 little
endian, st_info is byte 4, st_value is bytes 8-15 little endian. -/
def decodeSym (bs : List Nat) : Elf64_Sym :=
  { st_name := leNat (bs.take 4),
    st_info := bs.getD 4 0,
    st_value := leNat ((bs.drop 8).take 8) }

/-- The cast of the section bytes to an Elf64_Sym array (lines 197-198): one
entry per started 24-byte chunk, matching the pointer loop sym < end which
also enters a trailing partial chunk (where the C reads past the buffer; the
model pads with zero bytes). -/
def decodeSyms (bs : List Nat) : List Elf64_Sym :=
  (List.range ((bs.length + 23) / 24)).map (fun k => decodeSym ((bs.drop (24 * k)).take 24))

/-- ksymtab_elf_for_each_global_sym at the handle level (lines 181-220): the
.symtab bytes are located first, but the get_section return value (line 195)
is ignored, so an absent .symtab leaves data and size uninitialized (junk);
a fatal get_section outcome aborts. -/
def ksymtab_elf_for_each_global_sym (ke : KsymtabElf) (junkSymtab : List Nat) :
    List (List Nat × Nat × Nat) × Option String :=
  match ksymtab_elf_get_section ke.sections SYMTAB with
  | Except.error e => ([], some e)
  | Except.ok none => for_each_global_sym ke.strtab ke.strtab_size (decodeSyms junkSymtab)
  | Except.ok (some data) => for_each_global_sym ke.strtab ke.strtab_size (decodeSyms data)

/-- Outcome of ksymtab_read: the optional registry and whether
ksymtab_elf_close was executed on the handle. -/
structure ReadResult where
  res : Option Ksymtab
  closed : Bool
deriving DecidableEq, Repr

/-- ksymtab_read (lines 431-451): open the binary; a no-handle outcome is
returned as NULL with no handle to close; an absent __ksymtab_strings section
jumps to done, closes the handle and returns NULL; otherwise the registry is
parsed from the section, .symtab is enumerated for diagnostics (any fatal
outcome inside aborts), the handle is closed and the registry returned. -/
def ksymtab_read (f : ElfFile) (j : Junk) : Except String ReadResult :=
  match ksymtab_elf_open f j.strtab j.strtab_size with
  | Except.error e => Except.error e
  | Except.ok none => Except.ok { res := none, closed := false }
  | Except.ok (some ke) =>
      match ksymtab_elf_get_section ke.sections KSYMTAB_STRINGS with
      | Except.error e => Except.error e
      | Except.ok none => Except.ok { res := none, closed := true }
      | Except.ok (some data) =>
          match parse_ksymtab_strings data with
          | Except.error e => Except.error e
          | Except.ok res =>
              match (ksymtab_elf_for_each_global_sym ke j.symtab).2 with
              | some e => Except.error e
              | none => Except.ok { res := some res, closed := true }

/-- C4: the top-level extraction returns the none outcome, not an error, on a
readable input that is not an ELF file (no handle was created, so none is
closed), and on a valid 64-bit ELF without a __ksymtab_strings section it
returns none after closing the handle; the latter needs the cached-strtab
lookup not to be fatal, which holds whenever .strtab is present and proper. -/
theorem ksymtab_read_none_spec (f : ElfFile) (j : Junk) :
    ((f.is_elf_kind = false ∨ f.magicOk = false) →
      ksymtab_read f j = Except.ok { res := none, closed := false })
    ∧ (f.is_elf_kind = true → f.magicOk = true → f.elfClass = 64 →
       (∃ o, ksymtab_elf_get_section f.sections STRTAB = Except.ok o) →
       f.sections.find? (fun s => s.name == KSYMTAB_STRINGS) = none →
       ksymtab_read f j = Except.ok { res := none, closed := true }) := by
  constructor
  · intro h
    rcases h with h | h <;> simp [ksymtab_read, ksymtab_elf_open, h]
  · intro h1 h2 h3 ⟨o, ho⟩ h5
    have hks : ksymtab_elf_get_section f.sections KSYMTAB_STRINGS = Except.ok none := by
      unfold ksymtab_elf_get_section
      rw [h5]
    cases o with
    | none => simp [ksymtab_read, ksymtab_elf_open, h1, h2, h3, ho, hks]
    | some d => simp [ksymtab_read, ksymtab_elf_open, h1, h2, h3, ho, hks]

/-- C4 witness: a non-ELF input yields none, and a 64-bit ELF holding only a
proper .strtab section (so no __ksymtab_strings) yields none with the handle
closed. -/
theorem ksymtab_read_none_spec_witness :
    ksymtab_read { is_elf_kind := false, magicOk := false, elfClass := 0, sections := [] }
        { strtab := [], strtab_size := 0, symtab := [] }
      = Except.ok { res := none, closed := false }
    ∧ ksymtab_read { is_elf_kind := true, magicOk := true, elfClass := 64,
                     sections := [{ name := ".strtab", sh_type_nobits := false, data := [0, 97, 0] }] }
        { strtab := [], strtab_size := 0, symtab := [] }
      = Except.ok { res := none, closed := true } :=
  ⟨(ksymtab_read_none_spec
      { is_elf_kind := false, magicOk := false, elfClass := 0, sections := [] }
      { strtab := [], strtab_size := 0, symtab := [] }).1 (Or.inl rfl),
   (ksymtab_read_none_spec
      { is_elf_kind := true, magicOk := true, elfClass := 64,
        sections := [{ name := ".strtab", sh_type_nobits := false, data := [0, 97, 0] }] }
      { strtab := [], strtab_size := 0, symtab := [] }).2 rfl rfl rfl
      ⟨some [0, 97, 0], rfl⟩ (by decide)⟩

deriving instance DecidableEq for Except

/-- C7 (code bug): on a 64-bit ELF without a .strtab section the handle's
cached strtab view and length are whatever the uninitialized locals of
ksymtab_elf_open held, because the -1 return of the get_section call at line
166 is ignored; two runs differing only in those indeterminate values yield
observably different handles, so the cached view is not a defined empty or
absent state.  With .strtab present the handle does not depend on them. -/
theorem ksymtab_elf_open_strtab_uninitialized :
    ksymtab_elf_open
        { is_elf_kind := true, magicOk := true, elfClass := 64,
          sections := [{ name := "__ksymtab_strings", sh_type_nobits := false, data := [102, 0] }] }
        [] 0
      = Except.ok (some { sections := [{ name := "__ksymtab_strings", sh_type_nobits := false, data := [102, 0] }],
                          strtab := [], strtab_size := 0 })
    ∧ ksymtab_elf_open
        { is_elf_kind := true, magicOk := true, elfClass := 64,
          sections := [{ name := "__ksymtab_strings", sh_type_nobits := false, data := [102, 0] }] }
        [9, 9] 7
      = Except.ok (some { sections := [{ name := "__ksymtab_strings", sh_type_nobits := false, data := [102, 0] }],
                          strtab := [9, 9], strtab_size := 7 })
    ∧ ksymtab_elf_open
        { is_elf_kind := true, magicOk := true, elfClass := 64,
          sections := [{ name := "__ksymtab_strings", sh_type_nobits := false, data := [102, 0] }] }
        [] 0
      ≠ ksymtab_elf_open
          { is_elf_kind := true, magicOk := true, elfClass := 64,
            sections := [{ name := "__ksymtab_strings", sh_type_nobits := false, data := [102, 0] }] }
          [9, 9] 7
    ∧ ksymtab_elf_open
        { is_elf_kind := true, magicOk := true, elfClass := 64,
          sections := [{ name := ".strtab", sh_type_nobits := false, data := [0, 97, 0] }] }
        [] 0
      = ksymtab_elf_open
          { is_elf_kind := true, magicOk := true, elfClass := 64,
            sections := [{ name := ".strtab", sh_type_nobits := false, data := [0, 97, 0] }] }
          [9, 9] 7 := by
  refine ⟨rfl, rfl, ?_, rfl⟩
  decide

/-- Dereference of a link pointer: the string held by heap cell p, none when
the cell was freed or the pointer is invalid. -/
def heap_read (h : List (Option (List Nat))) (p : Nat) : Option (List Nat) :=
  (h[p]?).getD none

/-- free() of a link string: the cell becomes empty, the addresses of the
other cells are unchanged. -/
def heap_free (h : List (Option (List Nat))) (p : Nat) : List (Option (List Nat)) :=
  h.set p none

/-- safe_strdup_or_null (utils.h, used at line 233): NULL stays NULL, any
other argument is copied into freshly allocated storage.  Allocation is
modelled as a new cell at the end of the heap, so the fresh pointer differs
from every live pointer.  Duplicating a freed or invalid pointer is undefined
behaviour in the C; the model reads the empty string there. -/
def safe_strdup_or_null (h : List (Option (List Nat))) (p : Option Nat) :
    List (Option (List Nat)) × Option Nat :=
  match p with
  | none => (h, none)
  | some q => (h ++ [some ((heap_read h q).getD [])], some h.length)

/-- ksymtab_ksym_set_link (lines 229-234): free the record's previous link
string, if any, then store a fresh duplicate of the argument (or NULL).  The
record is addressed by its index in its registry. -/
def ksymtab_ksym_set_link (h : List (Option (List Nat))) (t : Ksymtab) (i : Nat)
    (p : Option Nat) : List (Option (List Nat)) × Ksymtab :=
  match t.hash[i]? with
  | none => (h, t)
  | some k =>
      let h1 := match k.link with
        | some q => heap_free h q
        | none => h
      let r := safe_strdup_or_null h1 p
      (r.1, { t with hash := t.hash.set i { k with link := r.2 } })

/-- ksymtab_copy_sym (lines 290-301): read the source record's name, value
and link pointer (the ksymtab_ksym_get accessors are trivial getters declared
in ksymtab.h, not under src/), insert a new record with that name and value
into the destination registry (it lands at index t.hash.length) and duplicate
the link string into it. -/
def ksymtab_copy_sym (h : List (Option (List Nat))) (t : Ksymtab) (src : Ksym) :
    List (Option (List Nat)) × Ksymtab :=
  ksymtab_ksym_set_link h (ksymtab_add_sym t src.key src.value) t.hash.length src.link

theorem list_set_concat {α : Type} : ∀ (l : List α) (a b : α),
    (l ++ [a]).set l.length b = l ++ [b]
  | [], _, _ => rfl
  | x :: tl, a, b => by simp [List.set, list_set_concat tl a b]

theorem heap_read_lt (h : List (Option (List Nat))) (p : Nat) (s : List Nat)
    (hp : heap_read h p = some s) : p < h.length := by
  by_contra hge
  rw [heap_read, List.getElem?_eq_none (Nat.le_of_not_lt hge)] at hp
  exact Option.noConfusion hp

theorem heap_read_append_left (h l : List (Option (List Nat))) (p : Nat)
    (hlt : p < h.length) : heap_read (h ++ l) p = heap_read h p := by
  rw [heap_read, heap_read, List.getElem?_append_left hlt]

theorem heap_read_concat_length (h : List (Option (List Nat))) (c : Option (List Nat)) :
    heap_read (h ++ [c]) h.length = c := by
  rw [heap_read, List.getElem?_concat_length]
  rfl

theorem heap_read_free_ne (h : List (Option (List Nat))) (q p : Nat) (hne : q ≠ p) :
    heap_read (heap_free h q) p = heap_read h p := by
  rw [heap_free, heap_read, heap_read, List.getElem?_set_ne hne]

theorem heap_read_set_ne (h : List (Option (List Nat))) (q p : Nat) (c : Option (List Nat))
    (hne : q ≠ p) : heap_read (h.set q c) p = heap_read h p := by
  rw [heap_read, heap_read, List.getElem?_set_ne hne]

theorem heap_read_strdup (h : List (Option (List Nat))) (np : Option Nat) (x : Nat)
    (hx : x < h.length) :
    heap_read (safe_strdup_or_null h np).1 x = heap_read h x := by
  cases np with
  | none => rfl
  | some q => exact heap_read_append_left h _ x hx

/-- C8: duplicating a record (here: record src sitting at index j of its
registry, with a live link string s at heap cell p) produces a fresh record at
index t.hash.length whose name and value are the source's, whose mark flag is
false and whose link is a fresh cell (hp0.length, distinct from p) holding a
copy of s; afterwards replacing or freeing the original's link leaves the
copy's record and link text unchanged, and replacing the copy's link leaves
the original's record and link text unchanged. -/
theorem ksymtab_copy_sym_spec
    (hp0 : List (Option (List Nat))) (t : Ksymtab) (src : Ksym) (j p : Nat) (s : List Nat)
    (hsrc : t.hash[j]? = some src) (hlink : src.link = some p)
    (hp : heap_read hp0 p = some s) :
    (ksymtab_copy_sym hp0 t src).2.hash[t.hash.length]?
        = some { key := src.key, value := src.value, mark := false, link := some hp0.length }
    ∧ heap_read (ksymtab_copy_sym hp0 t src).1 hp0.length = some s
    ∧ p ≠ hp0.length
    ∧ (∀ np : Option Nat,
        heap_read (ksymtab_ksym_set_link (ksymtab_copy_sym hp0 t src).1
            (ksymtab_copy_sym hp0 t src).2 j np).1 hp0.length = some s
        ∧ (ksymtab_ksym_set_link (ksymtab_copy_sym hp0 t src).1
              (ksymtab_copy_sym hp0 t src).2 j np).2.hash[t.hash.length]?
            = some { key := src.key, value := src.value, mark := false, link := some hp0.length })
    ∧ (∀ np : Option Nat,
        heap_read (ksymtab_ksym_set_link (ksymtab_copy_sym hp0 t src).1
            (ksymtab_copy_sym hp0 t src).2 t.hash.length np).1 p = some s
        ∧ (ksymtab_ksym_set_link (ksymtab_copy_sym hp0 t src).1
              (ksymtab_copy_sym hp0 t src).2 t.hash.length np).2.hash[j]? = some src) := by
  have hj : j < t.hash.length := by
    by_contra hge
    rw [List.getElem?_eq_none (Nat.le_of_not_lt hge)] at hsrc
    exact Option.noConfusion hsrc
  have hplt : p < hp0.length := heap_read_lt hp0 p s hp
  have hcopy : ksymtab_copy_sym hp0 t src =
      (hp0 ++ [some s],
        { hash := t.hash ++ [{ key := src.key, value := src.value, mark := false,
                               link := some hp0.length }],
          mark_count := t.mark_count }) := by
    unfold ksymtab_copy_sym ksymtab_ksym_set_link
    simp only [ksymtab_add_sym]
    rw [List.getElem?_concat_length]
    dsimp only
    rw [hlink]
    dsimp only [safe_strdup_or_null]
    rw [hp]
    simp only [Option.getD_some]
    rw [list_set_concat]
  refine ⟨?_, ?_, Nat.ne_of_lt hplt, ?_, ?_⟩
  · rw [hcopy]
    exact List.getElem?_concat_length _ _
  · rw [hcopy]
    exact heap_read_concat_length hp0 (some s)
  · intro np
    rw [hcopy]
    dsimp only
    have hj1 : (t.hash ++ [{ key := src.key, value := src.value, mark := false,
                             link := some hp0.length }])[j]? = some src := by
      rw [List.getElem?_append_left hj]
      exact hsrc
    unfold ksymtab_ksym_set_link
    rw [hj1]
    dsimp only
    rw [hlink]
    dsimp only
    constructor
    · have hlen : hp0.length < (heap_free (hp0 ++ [some s]) p).length := by
        simp [heap_free]
      rw [heap_read_strdup _ np hp0.length hlen,
          heap_read_free_ne _ p hp0.length (Nat.ne_of_lt hplt),
          heap_read_concat_length hp0 (some s)]
    · rw [List.getElem?_set_ne (Nat.ne_of_lt hj), List.getElem?_concat_length]
  · intro np
    rw [hcopy]
    dsimp only
    have hci : (t.hash ++ [{ key := src.key, value := src.value, mark := false,
                             link := some hp0.length }])[t.hash.length]? =
        some { key := src.key, value := src.value, mark := false, link := some hp0.length } :=
      List.getElem?_concat_length _ _
    unfold ksymtab_ksym_set_link
    rw [hci]
    dsimp only
    constructor
    · have hlen : p < (heap_free (hp0 ++ [some s]) hp0.length).length := by
        simp [heap_free]
        omega
      rw [heap_read_strdup _ np p hlen,
          heap_read_free_ne _ hp0.length p (Nat.ne_of_lt hplt).symm,
          heap_read_append_left hp0 [some s] p hplt]
      exact hp
    · rw [List.getElem?_set_ne (Nat.ne_of_lt hj).symm, List.getElem?_append_left hj]
      exact hsrc

/-- C8 witness: duplicating a single-record registry whose record links to
the string bytes 108 held at heap cell 0; the copy sits at index 1 with the
fresh cell 1 holding an equal, independently stored string. -/
theorem ksymtab_copy_sym_spec_witness :
    heap_read [some [108]] 0 = some [108]
    ∧ (ksymtab_copy_sym [some [108]]
          { hash := [{ key := [97], value := 5, mark := false, link := some 0 }], mark_count := 0 }
          { key := [97], value := 5, mark := false, link := some 0 }).2.hash[1]?
        = some { key := [97], value := 5, mark := false, link := some 1 }
    ∧ heap_read (ksymtab_copy_sym [some [108]]
          { hash := [{ key := [97], value := 5, mark := false, link := some 0 }], mark_count := 0 }
          { key := [97], value := 5, mark := false, link := some 0 }).1 1 = some [108] :=
  ⟨by decide,
   (ksymtab_copy_sym_spec [some [108]]
      { hash := [{ key := [97], value := 5, mark := false, link := some 0 }], mark_count := 0 }
      { key := [97], value := 5, mark := false, link := some 0 } 0 0 [108]
      (by decide) rfl (by decide)).1,
   (ksymtab_copy_sym_spec [some [108]]
      { hash := [{ key := [97], value := 5, mark := false, link := some 0 }], mark_count := 0 }
      { key := [97], value := 5, mark := false, link := some 0 } 0 0 [108]
      (by decide) rfl (by decide)).2.1⟩

/-- C6: a non-empty strings blob whose final byte is not NUL makes
parse_ksymtab_strings fail with the FormatError (fail at line 403) before any
record is inserted: the error outcome carries no registry at all, so the
trailing partial entry is never silently truncated. -/
theorem parse_ksymtab_strings_malformed (bs : List Nat) (h1 : bs ≠ [])
    (h2 : bs.getLast h1 ≠ 0) :
    parse_ksymtab_strings bs = Except.error "Mallformed __ksymtab_strings section" := by
  have hgd : bs.getD (bs.length - 1) 0 = bs.getLast h1 := by
    rw [List.getD_eq_getElem?_getD, ← List.getLast?_eq_getElem?,
        List.getLast?_eq_getLast bs h1]
    rfl
  unfold parse_ksymtab_strings
  rw [hgd, if_pos h2]

/-- C6 witness: the blob consisting of the single byte 102 (no trailing NUL)
is rejected. -/
theorem parse_ksymtab_strings_malformed_witness :
    parse_ksymtab_strings [102] = Except.error "Mallformed __ksymtab_strings section" :=
  parse_ksymtab_strings_malformed [102] (by decide) (by decide)

/-- hash_find of the backing container.  Modelled from the spec: hash.c is not
under src/; section 4.4 specifies exact-key lookup with last-insertion-wins
among duplicate keys, and no entry for an absent key. -/
def hash_find (l : List Ksym) (n : List Nat) : Option Ksym :=
  l.reverse.find? (fun k => k.key == n)

/-- ksymtab_find (lines 306-318): a NULL name returns NULL immediately; an
absent key returns NULL; otherwise the record found by hash_find.  The name
argument is optional to model the NULL C pointer distinctly from the empty
string. -/
def ksymtab_find (t : Ksymtab) (name : Option (List Nat)) : Option Ksym :=
  match name with
  | none => none
  | some n => hash_find t.hash n

/-- C9: find on an absent (NULL) lookup key returns the not-found outcome,
find on a key borne by no record (in particular the empty string when never
inserted) returns the not-found outcome, any record that find does return is a
record of the registry bearing exactly the requested key, and whenever some
record of the registry bears the key, find does return such a record (lookup
of a present key returns its record); the function is total, so no input
crashes it. -/
theorem ksymtab_find_spec (t : Ksymtab) (n : List Nat) :
    ksymtab_find t none = none
    ∧ ((∀ k ∈ t.hash, k.key ≠ n) → ksymtab_find t (some n) = none)
    ∧ (∀ k, ksymtab_find t (some n) = some k → k ∈ t.hash ∧ k.key = n)
    ∧ (∀ k, k ∈ t.hash → k.key = n →
        ∃ r, ksymtab_find t (some n) = some r ∧ r ∈ t.hash ∧ r.key = n) := by
  have hsound : ∀ k, ksymtab_find t (some n) = some k → k ∈ t.hash ∧ k.key = n := by
    intro k hk
    have hk' : t.hash.reverse.find? (fun x => x.key == n) = some k := hk
    have hmem : k ∈ t.hash := List.mem_reverse.mp (List.mem_of_find?_eq_some hk')
    have hkey := List.find?_some hk'
    exact ⟨hmem, by simpa using hkey⟩
  refine ⟨rfl, ?_, hsound, ?_⟩
  · intro h
    unfold ksymtab_find hash_find
    rw [List.find?_eq_none]
    intro k hk
    have hmem : k ∈ t.hash := List.mem_reverse.mp hk
    simp [h k hmem]
  · intro k hmem hkey
    have hex : ∃ x ∈ t.hash.reverse, (x.key == n) = true :=
      ⟨k, List.mem_reverse.mpr hmem, by simp [hkey]⟩
    have hissome : (t.hash.reverse.find? (fun x => x.key == n)).isSome = true :=
      List.find?_isSome.mpr hex
    obtain ⟨r, hr⟩ := Option.isSome_iff_exists.mp hissome
    have hfind : ksymtab_find t (some n) = some r := hr
    exact ⟨r, hfind, hsound r hfind⟩

/-- C9 witness: a one-record registry keyed by the byte 97; the NULL key and
the absent empty-string key are both not found, and the present key 97 is
found with a record bearing it. -/
theorem ksymtab_find_spec_witness :
    ksymtab_find { hash := [{ key := [97], value := 0, mark := false, link := none }],
                   mark_count := 0 } none = none
    ∧ ksymtab_find { hash := [{ key := [97], value := 0, mark := false, link := none }],
                     mark_count := 0 } (some []) = none
    ∧ (∃ r, ksymtab_find { hash := [{ key := [97], value := 0, mark := false, link := none }],
                           mark_count := 0 } (some [97]) = some r
          ∧ r ∈ ({ hash := [{ key := [97], value := 0, mark := false, link := none }],
                   mark_count := 0 } : Ksymtab).hash ∧ r.key = [97]) :=
  ⟨(ksymtab_find_spec { hash := [{ key := [97], value := 0, mark := false, link := none }],
                        mark_count := 0 } []).1,
   (ksymtab_find_spec { hash := [{ key := [97], value := 0, mark := false, link := none }],
                        mark_count := 0 } []).2.1 (by decide),
   (ksymtab_find_spec { hash := [{ key := [97], value := 0, mark := false, link := none }],
                        mark_count := 0 } [97]).2.2.2
     { key := [97], value := 0, mark := false, link := none } (by decide) rfl⟩

/-- hash_get_count of the backing container.  Modelled from the spec: hash.c
is not under src/; the count capability of the opaque container is the number
of entries it holds. -/
def hash_get_count (l : List Ksym) : Nat :=
  l.length

/-- ksymtab_len (lines 320-329): 0 for a NULL registry handle, otherwise the
container count. -/
def ksymtab_len (t : Option Ksymtab) : Nat :=
  match t with
  | none => 0
  | some tt => hash_get_count tt.hash

/-- ksymtab_for_each (lines 336-355): nothing is visited for a NULL registry
handle; otherwise every record is visited in the container's internal order
(modelled from the spec as the stored order).  The result is the list of
records passed to the visitor, in order. -/
def ksymtab_for_each (t : Option Ksymtab) : List Ksym :=
  match t with
  | none => []
  | some tt => tt.hash

/-- ksymtab_for_each_unmarked (lines 357-387): delegates to ksymtab_for_each
with unmarked_callback, which drops marked records and projects the rest to
(name, value cast to an index).  The result is the list of visitor calls. -/
def ksymtab_for_each_unmarked (t : Option Ksymtab) : List (List Nat × Nat) :=
  ((ksymtab_for_each t).filter (fun k => !k.mark)).map (fun k => (k.key, k.value))

/-- C10: on the absent (NULL) registry handle the length query returns 0 and
both the full and the unmarked iteration visit nothing; all three operations
are total on the absent handle. -/
theorem ksymtab_null_handle_spec :
    ksymtab_len none = 0
    ∧ ksymtab_for_each none = []
    ∧ ksymtab_for_each_unmarked none = [] :=
  ⟨rfl, rfl, rfl⟩
